import Mathlib

/-!
Verification of the wiki publishing session of the MacFound ETL pipeline
(`etl/wiki.py`, class `WikiSession`).

The code is embedded shallowly: every remote or filesystem side effect the
Python code performs is recorded as an `Ev` in a trace, threaded through an
explicit state `St` holding the remote page store and the trace so far.
Fallible effects (network calls, page fetch/save, file reads) are driven by
a failure oracle `World.fails`; a failing effect is still recorded in the
trace (it was attempted) and then aborts the computation with an error that
carries the state at the failure point, mirroring a raised Python exception.

The collaborating data model (`etl/competition.py`: `Competition`,
`Proposal`, `Toc`, `Attachment`, `MediaWikiTitleAdder`) is not part of the
sources under verification; those carrier types are modelled from the spec
at their interface boundary, as noted on each definition.
-/

/-- Errors a run can raise: `precondition` models the explicit
`raise Exception(...)` in `create_pages`; `transport` models any
network / page-store / file-system failure. -/
inductive Err where
  | precondition (msg : String)
  | transport
deriving DecidableEq, Repr

/-- One attempted side effect of the session, in the order the Python code
performs them: a raw API call (with the parameters actually transmitted and
the file parts), a page fetch (`site.pages[t]` + `.exists`), a page save,
opening/reading a local attachment file, the full remote page listing
(`site.allpages()`), and an operator-visible `print`. -/
inductive Ev where
  | rawCall (action : String) (params : List (String × String)) (files : List (String × String))
  | fetch (title : String)
  | save (title : String) (body : String)
  | openRead (path : String)
  | listPages
  | printMsg (msg : String)
deriving DecidableEq, Repr

/-- The state threaded through a run: the remote wiki's pages
(title, body — in remote-listing order) and the trace of attempted
effects so far. -/
structure St where
  pages : List (String × String)
  trace : List Ev
deriving DecidableEq, Repr

/-- The environment of a run: which attempted effects fail
(network/store/filesystem faults), and the contents of local attachment
files. -/
structure World where
  fails : Ev → Bool
  fileContents : String → String

/-- Record an effect in the trace. -/
def emit (e : Ev) (s : St) : St :=
  { s with trace := s.trace ++ [e] }

/-- Attempt a fallible effect: it is recorded in the trace either way;
if the world makes it fail, the computation aborts with a transport error
carrying the state at the failure point. -/
def step (w : World) (e : Ev) (s : St) : Except (Err × St) St :=
  if w.fails e then .error (.transport, emit e s) else .ok (emit e s)

/-- The parameters actually transmitted on the wire: the transport stack
(`mwclient`/`requests`, external collaborators) omits every parameter whose
value is `None`, so a `none` value never reaches the remote side. -/
def wireParams (ps : List (String × Option String)) : List (String × String) :=
  ps.filterMap (fun p => p.2.map (fun v => (p.1, v)))

/-- `site.pages[title]` followed by `.exists`: one recorded fetch, whose
answer is read off the remote store. -/
def fetchExists (w : World) (title : String) (s : St) : Except (Err × St) (Bool × St) :=
  match step w (.fetch title) s with
  | .error e => .error e
  | .ok s1 => .ok ((s1.pages.lookup title).isSome, s1)

/-- Write a page body into the remote store, replacing the body in place if
the title exists and appending the page otherwise. -/
def setPage (ps : List (String × String)) (t b : String) : List (String × String) :=
  if ps.any (fun p => p.1 == t) then
    ps.map (fun p => if p.1 == t then (t, b) else p)
  else ps ++ [(t, b)]

/-- `p.save(body)`: one recorded save, mutating the remote store on
success. -/
def savePage (w : World) (t b : String) (s : St) : Except (Err × St) St :=
  match step w (.save t b) s with
  | .error e => .error e
  | .ok s1 => .ok { s1 with pages := setPage s1.pages t b }

/-- Modelled from the spec: a Record (Proposal) of the dataset — a unique
key plus named cell values; `cell` returns the value or absent
(etl/competition.py is outside the sources under src/). -/
structure Proposal where
  key : String
  cells : List (String × String)
deriving DecidableEq, Repr

/-- Modelled from the spec: `Record.cell(columnName) -> value | absent`. -/
def Proposal.cell (p : Proposal) (c : String) : Option String :=
  p.cells.lookup c

/-- Modelled from the spec: a table-of-contents structure — name, the flag
declaring raw mode, a template-file reference, and the grouped-data payload
serialized as JSON text (the payload is opaque at this interface boundary,
so the field holds the text that `json.dumps` produces). -/
structure Toc where
  name : String
  raw : Bool
  template_file : String
  grouped_data : String
deriving DecidableEq, Repr

/-- Modelled from the spec: an attachment — owning record key,
permissions-governing column name, declared file name, and local path. -/
structure Attachment where
  key : String
  column_name : String
  file : String
  path : String
deriving DecidableEq, Repr

/-- Modelled from the spec: a dataset (Competition) — designated key-column
name, its TOCs, its ordered Records, and the CSV byte buffer that
`to_csv` serializes the full dataset to (opaque at this boundary). -/
structure Competition where
  key_column_name : String
  tocs : List Toc
  proposals : List Proposal
  csv : String
deriving DecidableEq, Repr

/-- Modelled from the spec: the designated title column populated by the
external title-assignment step (`MediaWikiTitleAdder.title_column_name` in
etl/competition.py, outside src/); its concrete value is never inspected
by the session code. -/
def title_column_name : String := "MediaWiki Title"

/-- The session object: target namespace (competition name) and the
data-only mode flag `csv_only` (initialized `False` in `__init__`). -/
structure WikiSession where
  competition_name : String
  csv_only : Bool
deriving DecidableEq, Repr

/-- The machine-generated warning comment placed at the top of every page
body the pipeline creates. -/
def generated_warning : String :=
  "<!-- This page is generated by the ETL pipelines in the https://github.com/OpenTechStrategies/torque-sites/. It is rendered based on the template in the Torque Configuration (TorqueConfig:MainConfig), and the \x27#tdcrender\x27 line below is correct. Normally, this page should not be edited, as any edits you make here will not be stored in the Torque database and thus would be lost the next time the ETL process is run.-->"

/-- Body of a record display page: the warning comment plus the
`#tdcrender` directive for `<namespace>/id/<key>.mwiki`. -/
def proposal_page_body (cn key : String) : String :=
  generated_warning ++ "\n\x7b\x7b #tdcrender:" ++ cn ++ "/id/" ++ key ++ ".mwiki \x7d\x7d"

/-- Body of a TOC display page: the warning comment plus the `#tdcrender`
directive for `<namespace>/toc/<name>.mwiki`. -/
def toc_page_body (cn name : String) : String :=
  generated_warning ++ "\n\x7b\x7b #tdcrender:" ++ cn ++ "/toc/" ++ name ++ ".mwiki \x7d\x7d"

/-- `WikiSession.create_page`: no-op on an empty title; otherwise fetch the
page and save the body only if it does not already exist or
`create_if_exists` is set; any failure in the fetch or the save is caught
and logged as `<title> failed to save`. -/
def create_page (w : World) (page_title body : String) (create_if_exists : Bool) (s : St) : St :=
  if page_title = "" then s
  else
    match fetchExists w page_title s with
    | .error (_, s1) => emit (.printMsg (page_title ++ " failed to save")) s1
    | .ok (ex, s1) =>
      if !ex || create_if_exists then
        match savePage w page_title body s1 with
        | .error (_, s2) => emit (.printMsg (page_title ++ " failed to save")) s2
        | .ok s2 => s2
      else s1

/-- The loop body of `WikiSession.create_pages` over the ordered
proposals: read the title cell, raise the precondition error if it is
absent, else create the record display page. -/
def create_pages_go (w : World) (cn : String) : List Proposal → St → Except (Err × St) St
  | [], s => .ok s
  | p :: ps, s =>
    match p.cell title_column_name with
    | none => .error (.precondition "Competition needs the page title adder run", s)
    | some t => create_pages_go w cn ps (create_page w t (proposal_page_body cn p.key) false s)

/-- `WikiSession.create_pages`. -/
def create_pages (w : World) (cn : String) (comp : Competition) (s : St) : Except (Err × St) St :=
  create_pages_go w cn comp.proposals s

/-- Parameter map of the `torquedataconnectuploadtoc` call; `raw_toc` is
`"true"` when the TOC declares raw mode and `None` otherwise. -/
def toc_call_params (cn : String) (toc : Toc) : List (String × Option String) :=
  [("action", some "torquedataconnectuploadtoc"),
   ("format", some "json"),
   ("sheet_name", some cn),
   ("toc_name", some toc.name),
   ("raw_toc", if toc.raw then some "true" else none)]

/-- File parts of the `torquedataconnectuploadtoc` call. -/
def toc_call_files (toc : Toc) : List (String × String) :=
  [("template", toc.template_file), ("json", toc.grouped_data)]

/-- The raw API call event `upload_toc` issues. -/
def toc_call_ev (cn : String) (toc : Toc) : Ev :=
  .rawCall "api" (wireParams (toc_call_params cn toc)) (toc_call_files toc)

/-- `WikiSession.upload_toc`: the TOC data upload, then create the TOC
display page if it does not already exist; nothing here is wrapped in an
exception handler. -/
def upload_toc (w : World) (cn : String) (toc : Toc) (s : St) : Except (Err × St) St :=
  match step w (toc_call_ev cn toc) s with
  | .error e => .error e
  | .ok s1 =>
    match fetchExists w toc.name s1 with
    | .error e => .error e
    | .ok (ex, s2) =>
      if ex then .ok s2
      else savePage w toc.name (toc_page_body cn toc.name) s2

/-- The `for toc in comp.tocs` loop of `upload_sheet`. -/
def upload_tocs (w : World) (cn : String) : List Toc → St → Except (Err × St) St
  | [], s => .ok s
  | t :: ts, s =>
    match upload_toc w cn t s with
    | .error e => .error e
    | .ok s1 => upload_tocs w cn ts s1

/-- Parameter map of the `torquedataconnectuploadattachment` call. -/
def att_call_params (cn : String) (a : Attachment) : List (String × Option String) :=
  [("action", some "torquedataconnectuploadattachment"),
   ("format", some "json"),
   ("sheet_name", some cn),
   ("object_id", some a.key),
   ("permissions_column", some a.column_name),
   ("attachment_name", some a.file)]

/-- The raw API call event one attachment upload issues. -/
def att_call_ev (w : World) (cn : String) (a : Attachment) : Ev :=
  .rawCall "api" (wireParams (att_call_params cn a)) [("attachment", w.fileContents a.path)]

/-- The three effects a successful upload of one attachment records:
the progress print, the binary file open/read, and the upload call. -/
def att_events (w : World) (cn : String) (a : Attachment) : List Ev :=
  [.printMsg ("Uploading " ++ a.file), .openRead a.path, att_call_ev w cn a]

/-- The `for attachment in attachments` loop of `upload_attachments`:
print, open and read the file, issue the call; no handler anywhere. -/
def upload_attachments_go (w : World) (cn : String) : List Attachment → St → Except (Err × St) St
  | [], s => .ok s
  | a :: rest, s =>
    match step w (.openRead a.path) (emit (.printMsg ("Uploading " ++ a.file)) s) with
    | .error e => .error e
    | .ok s1 =>
      match step w (att_call_ev w cn a) s1 with
      | .error e => .error e
      | .ok s2 => upload_attachments_go w cn rest s2

/-- `WikiSession.upload_attachments`: returns immediately in data-only
(`csv_only`) mode, else uploads the attachments one at a time in order. -/
def upload_attachments (w : World) (ss : WikiSession) (atts : List Attachment) (s : St) : Except (Err × St) St :=
  if ss.csv_only then .ok s
  else upload_attachments_go w ss.competition_name atts s

/-- Parameter map of the `torquedataconnectuploadsheet` call. -/
def sheet_call_params (cn : String) (comp : Competition) : List (String × Option String) :=
  [("action", some "torquedataconnectuploadsheet"),
   ("format", some "json"),
   ("object_name", some "proposal"),
   ("sheet_name", some cn),
   ("key_column", some comp.key_column_name)]

/-- The raw API call event the sheet upload issues. -/
def sheet_call_ev (cn : String) (comp : Competition) : Ev :=
  .rawCall "api" (wireParams (sheet_call_params cn comp)) [("data_file", comp.csv)]

/-- The fixed header `sanity_check_wiki` prints before the suspicious
titles. -/
def wiki_header_msg : String :=
  "The following pages are in the wiki, but not added via the etl pipeline"

/-- The body of the audit's reporting loop: print the title unless it is
among the expected ones. -/
def auditStep (added : List (Option String)) (acc : St) (t : String) : St :=
  if added.contains (some t) then acc else emit (Ev.printMsg t) acc

/-- `WikiSession.sanity_check_wiki`: gather the expected titles, list all
remote pages, and print every remote title not among the expected ones, in
remote-listing order. -/
def sanity_check_wiki (w : World) (comp : Competition) (s : St) : Except (Err × St) St :=
  let added := comp.proposals.map (fun p => p.cell title_column_name)
  match step w Ev.listPages s with
  | .error e => .error e
  | .ok s1 =>
    let all_pages := s1.pages.map Prod.fst
    let s2 := emit (Ev.printMsg wiki_header_msg) s1
    .ok (all_pages.foldl (auditStep added) s2)

/-- `WikiSession.upload_sheet`: the sheet upload call, each TOC upload,
page reconciliation unless in data-only mode, then the sanity check. -/
def upload_sheet (w : World) (ss : WikiSession) (comp : Competition) (s : St) : Except (Err × St) St :=
  match step w (sheet_call_ev ss.competition_name comp) s with
  | .error e => .error e
  | .ok s1 =>
    match upload_tocs w ss.competition_name comp.tocs s1 with
    | .error e => .error e
    | .ok s2 =>
      match (if ss.csv_only then .ok s2 else create_pages w ss.competition_name comp s2 : Except (Err × St) St) with
      | .error e => .error e
      | .ok s3 => sanity_check_wiki w comp s3

/-- A full run as the callers sequence it: `upload_sheet` on the dataset,
then `upload_attachments`, starting from a remote store `pages` and an
empty trace. -/
def full_run (w : World) (ss : WikiSession) (comp : Competition) (atts : List Attachment) (pages : List (String × String)) : Except (Err × St) St :=
  match upload_sheet w ss comp ⟨pages, []⟩ with
  | .error e => .error e
  | .ok s1 => upload_attachments w ss atts s1

/-- The trace accumulated by a run, whether it succeeded or aborted. -/
def stTrace : Except (Err × St) St → List Ev
  | .ok s => s.trace
  | .error (_, s) => s.trace

/-- Recognizes an attachment-upload call among the recorded effects. -/
def isAttCall : Ev → Bool
  | .rawCall _ ps _ => ps.lookup "action" == some "torquedataconnectuploadattachment"
  | _ => false

/-- The titles the audit reports for a dataset against a remote store:
remote titles, in listing order, whose title is not among the expected
ones. -/
def reportTitles (comp : Competition) (pages : List (String × String)) : List String :=
  (pages.map Prod.fst).filter
    (fun t => !((comp.proposals.map (fun p => p.cell title_column_name)).contains (some t)))

/-- A fault-free world with empty attachment files. -/
def w0 : World := ⟨fun _ => false, fun _ => ""⟩

/-- A world in which every page fetch fails and everything else succeeds. -/
def wFetchFail : World :=
  ⟨fun e => match e with | .fetch _ => true | _ => false, fun _ => ""⟩

/-- A world in which every local file open/read fails and everything else
succeeds. -/
def wReadFail : World :=
  ⟨fun e => match e with | .openRead _ => true | _ => false, fun _ => ""⟩

/-- An empty remote store with an empty trace. -/
def stEmpty : St := ⟨[], []⟩

/-- A store already holding a page titled `A`. -/
def stA : St := ⟨[("A", "old body")], []⟩

/-- A proposal whose title cell is `A`. -/
def propA : Proposal := ⟨"k1", [(title_column_name, "A")]⟩

/-- A proposal with no title cell at all. -/
def propNoTitle : Proposal := ⟨"k2", []⟩

/-- A proposal whose title cell is present but empty. -/
def propEmptyTitle : Proposal := ⟨"k3", [(title_column_name, "")]⟩

/-- A TOC that does not declare raw mode. -/
def tocA : Toc := ⟨"TocA", false, "tmpl", "gd"⟩

/-- A TOC that declares raw mode. -/
def tocR : Toc := ⟨"TocR", true, "tmplR", "gdR"⟩

/-- A concrete attachment. -/
def att1 : Attachment := ⟨"k1", "col", "doc.pdf", "/tmp/doc.pdf"⟩

/-- A second concrete attachment. -/
def att2 : Attachment := ⟨"k2", "col2", "doc2.pdf", "/tmp/doc2.pdf"⟩

/-- A session in data-only (`csv_only`) mode. -/
def ss0 : WikiSession := ⟨"comp", true⟩

/-- A session in full-publish mode. -/
def ss1 : WikiSession := ⟨"comp", false⟩

/-- A dataset with one TOC and no records. -/
def comp0 : Competition := ⟨"key", [tocA], [], "csvdata"⟩

/-- A dataset with one titled record and no TOCs. -/
def comp1 : Competition := ⟨"key", [], [propA], "csvdata"⟩

/-- The state a data-only `upload_sheet` run of `comp0` from an empty store
ends in: the TOC display page was created even though the session is in
data-only mode. -/
def c1Result : St :=
  ⟨[("TocA", toc_page_body "comp" "TocA")],
   [sheet_call_ev "comp" comp0, toc_call_ev "comp" tocA, Ev.fetch "TocA",
    Ev.save "TocA" (toc_page_body "comp" "TocA"), Ev.listPages,
    Ev.printMsg wiki_header_msg, Ev.printMsg "TocA"]⟩

/-- The error state `create_pages` ends in on `[propA, propNoTitle]`: the
page for `propA` was already fetched and saved before the precondition
failure on `propNoTitle`. -/
def c2ErrSt : St :=
  ⟨[("A", proposal_page_body "comp" "k1")],
   [Ev.fetch "A", Ev.save "A" (proposal_page_body "comp" "k1")]⟩

/-- Trace of a full fault-free run of `comp1` with one attachment from an
empty store: the audit's `listPages` (index 3) precedes the
attachment-upload call (index 7). -/
def c6Trace : List Ev :=
  [sheet_call_ev "comp" comp1, Ev.fetch "A",
   Ev.save "A" (proposal_page_body "comp" "k1"), Ev.listPages,
   Ev.printMsg wiki_header_msg, Ev.printMsg "Uploading doc.pdf",
   Ev.openRead "/tmp/doc.pdf", att_call_ev w0 "comp" att1]

/-- Final state of that full run. -/
def c6Result : St := ⟨[("A", proposal_page_body "comp" "k1")], c6Trace⟩

/-- The state reached by running `create_page` over a prefix of proposals,
each with its title read off its title cell — the state `create_pages`
has built when it reaches a later proposal. -/
def pagesFold (w : World) (cn : String) (xs : List Proposal) (s : St) : St :=
  xs.foldl
    (fun acc q =>
      create_page w ((q.cell title_column_name).getD "") (proposal_page_body cn q.key) false acc)
    s

/-- A world in which only the open/read of `/tmp/doc2.pdf` fails. -/
def wRead2Fail : World :=
  ⟨fun e => match e with | .openRead p => p == "/tmp/doc2.pdf" | _ => false, fun _ => ""⟩

/-- A store holding pages `A` and `C`. -/
def stAC : St := ⟨[("A", "x"), ("C", "y")], []⟩

/-- A store holding only page `A`. -/
def stAOnly : St := ⟨[("A", "x")], []⟩

/-- State after `create_pages` on `comp1` in a world where every fetch
fails: the failure was caught and logged, the batch still succeeded. -/
def c7St : St := ⟨[], [Ev.fetch "A", Ev.printMsg ("A" ++ " failed to save")]⟩

theorem emit_trace (e : Ev) (s : St) : (emit e s).trace = s.trace ++ [e] := rfl

theorem emit_pages (e : Ev) (s : St) : (emit e s).pages = s.pages := rfl

theorem step_ok {w : World} {e : Ev} {s s' : St} (h : step w e s = .ok s') :
    s'.trace = s.trace ++ [e] ∧ s'.pages = s.pages ∧ w.fails e = false := by
  unfold step at h
  by_cases hf : w.fails e = true
  · simp [hf] at h
  · simp [hf] at h
    subst h
    exact ⟨rfl, rfl, by simpa using hf⟩

theorem step_nofail {w : World} {e : Ev} {s : St} (h : w.fails e = false) :
    step w e s = .ok (emit e s) := by
  unfold step
  simp [h]

theorem step_fail {w : World} {e : Ev} {s : St} (h : w.fails e = true) :
    step w e s = .error (.transport, emit e s) := by
  unfold step
  simp [h]

theorem fetchExists_nofail {w : World} {t : String} (s : St)
    (h : w.fails (Ev.fetch t) = false) :
    fetchExists w t s = .ok ((s.pages.lookup t).isSome, emit (Ev.fetch t) s) := by
  unfold fetchExists
  rw [step_nofail h]
  rfl

theorem fetchExists_fail {w : World} {t : String} (s : St)
    (h : w.fails (Ev.fetch t) = true) :
    fetchExists w t s = .error (.transport, emit (Ev.fetch t) s) := by
  unfold fetchExists
  rw [step_fail h]

theorem savePage_nofail {w : World} {t b : String} (s : St)
    (h : w.fails (Ev.save t b) = false) :
    savePage w t b s = .ok ⟨setPage s.pages t b, s.trace ++ [Ev.save t b]⟩ := by
  unfold savePage
  rw [step_nofail h]
  rfl

theorem savePage_fail {w : World} {t b : String} (s : St)
    (h : w.fails (Ev.save t b) = true) :
    savePage w t b s = .error (.transport, emit (Ev.save t b) s) := by
  unfold savePage
  rw [step_fail h]

theorem auditStep_mem (added : List (Option String)) (acc : St) (t : String)
    (h : added.contains (some t) = true) : auditStep added acc t = acc := by
  unfold auditStep
  rw [h]
  rfl

theorem auditStep_not_mem (added : List (Option String)) (acc : St) (t : String)
    (h : added.contains (some t) = false) :
    auditStep added acc t = emit (Ev.printMsg t) acc := by
  unfold auditStep
  rw [h]
  rfl

theorem audit_foldl (added : List (Option String)) (l : List String) (s : St) :
    l.foldl (auditStep added) s
      = { s with trace := s.trace ++ (l.filter (fun t => !(added.contains (some t)))).map Ev.printMsg } := by
  induction l generalizing s with
  | nil => simp
  | cons t ts ih =>
    rw [List.foldl_cons, List.filter_cons]
    cases h : added.contains (some t) with
    | true =>
      rw [auditStep_mem added s t h, ih]
      rfl
    | false =>
      rw [auditStep_not_mem added s t h, ih]
      simp [emit]

theorem sanity_check_wiki_eq {w : World} (comp : Competition) (s : St)
    (h : w.fails Ev.listPages = false) :
    sanity_check_wiki w comp s
      = .ok { s with trace := s.trace ++ [Ev.listPages, Ev.printMsg wiki_header_msg]
            ++ (reportTitles comp s.pages).map Ev.printMsg } := by
  unfold sanity_check_wiki
  rw [step_nofail h]
  dsimp only
  rw [audit_foldl]
  simp [emit, reportTitles]

theorem sanity_check_wiki_fail {w : World} (comp : Competition) (s : St)
    (h : w.fails Ev.listPages = true) :
    sanity_check_wiki w comp s = .error (.transport, emit Ev.listPages s) := by
  unfold sanity_check_wiki
  rw [step_fail h]

theorem sanity_check_wiki_ok {w : World} {comp : Competition} {s s' : St}
    (h : sanity_check_wiki w comp s = .ok s') :
    s' = { s with trace := s.trace ++ [Ev.listPages, Ev.printMsg wiki_header_msg]
            ++ (reportTitles comp s.pages).map Ev.printMsg }
      ∧ w.fails Ev.listPages = false := by
  cases hf : w.fails Ev.listPages with
  | true => rw [sanity_check_wiki_fail comp s hf] at h; simp at h
  | false =>
    rw [sanity_check_wiki_eq comp s hf] at h
    simp only [Except.ok.injEq] at h
    exact ⟨h.symm, rfl⟩

theorem create_page_empty (w : World) (b : String) (ce : Bool) (s : St) :
    create_page w "" b ce s = s := by
  unfold create_page
  rw [if_pos rfl]

theorem create_page_fetch_fail {w : World} {t : String} (b : String) (ce : Bool) (s : St)
    (ht : t ≠ "") (h : w.fails (Ev.fetch t) = true) :
    create_page w t b ce s
      = emit (.printMsg (t ++ " failed to save")) (emit (.fetch t) s) := by
  unfold create_page
  rw [if_neg ht, fetchExists_fail s h]

theorem create_page_exists_skip {w : World} {t : String} (b : String) (s : St)
    (ht : t ≠ "") (h : w.fails (Ev.fetch t) = false)
    (hex : (s.pages.lookup t).isSome = true) :
    create_page w t b false s = emit (.fetch t) s := by
  unfold create_page
  rw [if_neg ht, fetchExists_nofail s h]
  dsimp only
  rw [hex]
  rfl

theorem create_page_save {w : World} {t : String} (b : String) (ce : Bool) (s : St)
    (ht : t ≠ "") (h : w.fails (Ev.fetch t) = false)
    (hcond : (!(s.pages.lookup t).isSome || ce) = true)
    (hsave : w.fails (Ev.save t b) = false) :
    create_page w t b ce s
      = ⟨setPage s.pages t b, s.trace ++ [Ev.fetch t, Ev.save t b]⟩ := by
  unfold create_page
  rw [if_neg ht, fetchExists_nofail s h]
  dsimp only
  rw [hcond, savePage_nofail _ hsave]
  simp [emit]

theorem create_page_save_fail {w : World} {t : String} (b : String) (ce : Bool) (s : St)
    (ht : t ≠ "") (h : w.fails (Ev.fetch t) = false)
    (hcond : (!(s.pages.lookup t).isSome || ce) = true)
    (hsave : w.fails (Ev.save t b) = true) :
    create_page w t b ce s
      = emit (.printMsg (t ++ " failed to save")) (emit (.save t b) (emit (.fetch t) s)) := by
  unfold create_page
  rw [if_neg ht, fetchExists_nofail s h]
  dsimp only
  rw [hcond, savePage_fail _ hsave]
  rfl

theorem bool_or_false_parts {x y : Bool} (h : (!x || y) = false) : x = true ∧ y = false := by
  cases x <;> cases y <;> simp_all

theorem create_page_delta (w : World) (t b : String) (ce : Bool) (s : St) (Q : Ev → Prop)
    (hf : Q (.fetch t)) (hs : Q (.save t b)) (hp : ∀ m, Q (.printMsg m)) :
    ∃ d, (create_page w t b ce s).trace = s.trace ++ d ∧ ∀ e ∈ d, Q e := by
  by_cases ht : t = ""
  · subst ht
    rw [create_page_empty]
    exact ⟨[], by simp, by simp⟩
  cases hfet : w.fails (Ev.fetch t) with
  | true =>
    rw [create_page_fetch_fail b ce s ht hfet]
    refine ⟨[Ev.fetch t, Ev.printMsg (t ++ " failed to save")], by simp [emit], ?_⟩
    intro e he
    simp only [List.mem_cons, List.not_mem_nil, or_false] at he
    rcases he with rfl | rfl
    · exact hf
    · exact hp _
  | false =>
    cases hcond : (!(s.pages.lookup t).isSome || ce) with
    | false =>
      obtain ⟨hex, hcf⟩ := bool_or_false_parts hcond
      subst hcf
      rw [create_page_exists_skip b s ht hfet hex]
      refine ⟨[Ev.fetch t], by simp [emit], ?_⟩
      intro e he
      simp only [List.mem_cons, List.not_mem_nil, or_false] at he
      rcases he with rfl
      exact hf
    | true =>
      cases hsave : w.fails (Ev.save t b) with
      | false =>
        rw [create_page_save b ce s ht hfet hcond hsave]
        refine ⟨[Ev.fetch t, Ev.save t b], by simp, ?_⟩
        intro e he
        simp only [List.mem_cons, List.not_mem_nil, or_false] at he
        rcases he with rfl | rfl
        · exact hf
        · exact hs
      | true =>
        rw [create_page_save_fail b ce s ht hfet hcond hsave]
        refine ⟨[Ev.fetch t, Ev.save t b, Ev.printMsg (t ++ " failed to save")], by simp [emit], ?_⟩
        intro e he
        simp only [List.mem_cons, List.not_mem_nil, or_false] at he
        rcases he with rfl | rfl | rfl
        · exact hf
        · exact hs
        · exact hp _

theorem create_page_mono (w : World) (t b : String) (ce : Bool) (s : St) :
    ∃ d, (create_page w t b ce s).trace = s.trace ++ d := by
  obtain ⟨d, hd, _⟩ :=
    create_page_delta w t b ce s (fun _ => True) trivial trivial (fun _ => trivial)
  exact ⟨d, hd⟩

theorem create_page_attempts (w : World) (t b : String) (ce : Bool) (s : St)
    (ht : t ≠ "") :
    Ev.fetch t ∈ (create_page w t b ce s).trace
    ∧ (w.fails (Ev.fetch t) = true →
        Ev.printMsg (t ++ " failed to save") ∈ (create_page w t b ce s).trace) := by
  cases hfet : w.fails (Ev.fetch t) with
  | true =>
    rw [create_page_fetch_fail b ce s ht hfet]
    simp [emit]
  | false =>
    cases hcond : (!(s.pages.lookup t).isSome || ce) with
    | false =>
      obtain ⟨hex, hcf⟩ := bool_or_false_parts hcond
      subst hcf
      rw [create_page_exists_skip b s ht hfet hex]
      simp [emit]
    | true =>
      cases hsave : w.fails (Ev.save t b) with
      | false =>
        rw [create_page_save b ce s ht hfet hcond hsave]
        simp
      | true =>
        rw [create_page_save_fail b ce s ht hfet hcond hsave]
        simp [emit]

theorem create_pages_go_mono (w : World) (cn : String) (l : List Proposal) :
    ∀ (s s2 : St), create_pages_go w cn l s = .ok s2 → ∃ d, s2.trace = s.trace ++ d := by
  induction l with
  | nil =>
    intro s s2 h
    unfold create_pages_go at h
    simp only [Except.ok.injEq] at h
    exact ⟨[], by rw [← h]; simp⟩
  | cons p ps ih =>
    intro s s2 h
    unfold create_pages_go at h
    cases hc : p.cell title_column_name with
    | none => rw [hc] at h; simp at h
    | some t =>
      rw [hc] at h
      obtain ⟨d1, hd1⟩ := ih _ _ h
      obtain ⟨d0, hd0⟩ := create_page_mono w t (proposal_page_body cn p.key) false s
      exact ⟨d0 ++ d1, by rw [hd1, hd0, List.append_assoc]⟩

theorem create_pages_go_ok_of_titled (w : World) (cn : String) (l : List Proposal) :
    ∀ (s : St), (∀ q ∈ l, (q.cell title_column_name).isSome = true) →
      ∃ s2, create_pages_go w cn l s = .ok s2 := by
  induction l with
  | nil => exact fun s _ => ⟨s, rfl⟩
  | cons p ps ih =>
    intro s h
    have hp := h p (by simp)
    cases hc : p.cell title_column_name with
    | none => rw [hc] at hp; simp at hp
    | some t =>
      obtain ⟨s2, hs2⟩ :=
        ih (create_page w t (proposal_page_body cn p.key) false s)
          (fun q hq => h q (by simp [hq]))
      exact ⟨s2, by unfold create_pages_go; rw [hc]; exact hs2⟩

/-- C3: for a non-empty title whose page already exists remotely, a
`create_page` call without the `create_if_exists` flag issues no save and
leaves the remote content unchanged, and a second identical call changes
nothing either. -/
theorem create_page_idempotent_on_existing (w : World) (t b : String) (s : St)
    (ht : t ≠ "") (hex : (s.pages.lookup t).isSome = true) :
    (create_page w t b false s).pages = s.pages
    ∧ (∃ d, (create_page w t b false s).trace = s.trace ++ d
        ∧ ∀ t2 b2, Ev.save t2 b2 ∉ d)
    ∧ (create_page w t b false (create_page w t b false s)).pages = s.pages := by
  have core : ∀ s1 : St, (s1.pages.lookup t).isSome = true →
      (create_page w t b false s1).pages = s1.pages
      ∧ ∃ d, (create_page w t b false s1).trace = s1.trace ++ d
          ∧ ∀ t2 b2, Ev.save t2 b2 ∉ d := by
    intro s1 hex1
    cases hfet : w.fails (Ev.fetch t) with
    | true =>
      rw [create_page_fetch_fail b false s1 ht hfet]
      refine ⟨rfl, ⟨[Ev.fetch t, Ev.printMsg (t ++ " failed to save")], by simp [emit], ?_⟩⟩
      intro t2 b2 hmem
      simp at hmem
    | false =>
      rw [create_page_exists_skip b s1 ht hfet hex1]
      refine ⟨rfl, ⟨[Ev.fetch t], by simp [emit], ?_⟩⟩
      intro t2 b2 hmem
      simp at hmem
  obtain ⟨h1, h2⟩ := core s hex
  refine ⟨h1, h2, ?_⟩
  have hex2 : ((create_page w t b false s).pages.lookup t).isSome = true := by
    rw [h1]; exact hex
  rw [(core _ hex2).1, h1]

/-- Closed instance of C3 at a store already holding page `A`. -/
theorem create_page_idempotent_on_existing_witness :
    (create_page w0 "A" "body" false stA).pages = stA.pages
    ∧ (∃ d, (create_page w0 "A" "body" false stA).trace = stA.trace ++ d
        ∧ ∀ t2 b2, Ev.save t2 b2 ∉ d)
    ∧ (create_page w0 "A" "body" false (create_page w0 "A" "body" false stA)).pages = stA.pages :=
  create_page_idempotent_on_existing w0 "A" "body" stA (by decide) (by decide)

theorem create_pages_go_cons_none (w : World) (cn : String) (p : Proposal)
    (ps : List Proposal) (s : St) (h : p.cell title_column_name = none) :
    create_pages_go w cn (p :: ps) s
      = .error (.precondition "Competition needs the page title adder run", s) := by
  unfold create_pages_go
  rw [h]

theorem create_pages_go_cons_some (w : World) (cn : String) (p : Proposal)
    (ps : List Proposal) (s : St) (t : String) (h : p.cell title_column_name = some t) :
    create_pages_go w cn (p :: ps) s
      = create_pages_go w cn ps (create_page w t (proposal_page_body cn p.key) false s) := by
  conv_lhs => unfold create_pages_go
  rw [h]

/-- C2 (amended): when the first title-less record sits after `xs`,
`create_pages` raises the precondition error upon reaching it — but only
after having issued the page-create calls for every record of `xs`; no
call is made for the title-less record or for any record after it. -/
theorem create_pages_precondition_at_first_missing (w : World) (cn : String)
    (xs : List Proposal) (p : Proposal) (ys : List Proposal) (s : St)
    (hxs : ∀ q ∈ xs, (q.cell title_column_name).isSome = true)
    (hp : p.cell title_column_name = none) :
    create_pages_go w cn (xs ++ p :: ys) s
      = .error (.precondition "Competition needs the page title adder run", pagesFold w cn xs s) := by
  induction xs generalizing s with
  | nil =>
    rw [List.nil_append, create_pages_go_cons_none w cn p ys s hp]
    rfl
  | cons q qs ih =>
    have hq := hxs q (by simp)
    cases hc : q.cell title_column_name with
    | none => rw [hc] at hq; simp at hq
    | some t =>
      rw [List.cons_append, create_pages_go_cons_some w cn q (qs ++ p :: ys) s t hc,
        ih (create_page w t (proposal_page_body cn q.key) false s)
          (fun r hr => hxs r (List.mem_cons_of_mem q hr))]
      unfold pagesFold
      rw [List.foldl_cons, hc]
      rfl

set_option maxRecDepth 8192 in
/-- C2 counterexample: on `[propA, propNoTitle]` the run does fail with
the precondition error, but the error state already contains the fetch
and save calls issued for the preceding record `propA` — so the failure
does not happen "before issuing any page-create call". -/
theorem create_pages_precondition_counterexample :
    create_pages_go w0 "comp" [propA, propNoTitle] stEmpty
      = .error (.precondition "Competition needs the page title adder run", c2ErrSt)
    ∧ Ev.fetch "A" ∈ c2ErrSt.trace
    ∧ Ev.save "A" (proposal_page_body "comp" "k1") ∈ c2ErrSt.trace := by
  refine ⟨rfl, ?_, ?_⟩ <;> decide

/-- Closed instance of the amended C2. -/
theorem create_pages_precondition_witness :
    create_pages_go w0 "comp" ([propA] ++ propNoTitle :: []) stEmpty
      = .error (.precondition "Competition needs the page title adder run",
          pagesFold w0 "comp" [propA] stEmpty) :=
  create_pages_precondition_at_first_missing w0 "comp" [propA] propNoTitle [] stEmpty
    (by decide) (by decide)

/-- C10: a record whose title cell is present but empty raises no
precondition error and contributes no effect at all — `create_page`
returns before fetching or saving anything — and with all other records
titled the batch still succeeds. -/
theorem create_pages_empty_title_silent (w : World) (cn : String)
    (xs : List Proposal) (p : Proposal) (ys : List Proposal) (s : St)
    (hp : p.cell title_column_name = some "") :
    create_pages_go w cn (xs ++ p :: ys) s = create_pages_go w cn (xs ++ ys) s
    ∧ ((∀ q ∈ xs ++ ys, (q.cell title_column_name).isSome = true) →
        ∃ s2, create_pages_go w cn (xs ++ p :: ys) s = .ok s2) := by
  have h1 : ∀ s : St,
      create_pages_go w cn (xs ++ p :: ys) s = create_pages_go w cn (xs ++ ys) s := by
    induction xs with
    | nil =>
      intro s
      rw [List.nil_append, List.nil_append,
        create_pages_go_cons_some w cn p ys s "" hp, create_page_empty]
    | cons q qs ih =>
      intro s
      rw [List.cons_append, List.cons_append]
      cases hc : q.cell title_column_name with
      | none =>
        rw [create_pages_go_cons_none w cn q (qs ++ p :: ys) s hc,
          create_pages_go_cons_none w cn q (qs ++ ys) s hc]
      | some t =>
        rw [create_pages_go_cons_some w cn q (qs ++ p :: ys) s t hc,
          create_pages_go_cons_some w cn q (qs ++ ys) s t hc, ih]
  refine ⟨h1 s, fun hall => ?_⟩
  rw [h1 s]
  exact create_pages_go_ok_of_titled w cn (xs ++ ys) s hall

/-- Closed instance of C10. -/
theorem create_pages_empty_title_witness :
    create_pages_go w0 "comp" [propA, propEmptyTitle] stEmpty
      = create_pages_go w0 "comp" [propA] stEmpty
    ∧ ∃ s2, create_pages_go w0 "comp" [propA, propEmptyTitle] stEmpty = .ok s2 := by
  have h := create_pages_empty_title_silent w0 "comp" [propA] propEmptyTitle [] stEmpty (by decide)
  exact ⟨h.1, h.2 (by decide)⟩

/-- C4: with the page listing succeeding, the audit prints its header and
then exactly the remote titles absent from the expected titles (one per
record, read from the title cell), in remote-listing order; and when every
remote title is expected, the report is empty. -/
theorem sanity_check_reports_unexpected (w : World) (comp : Competition) (s : St)
    (h : w.fails Ev.listPages = false) :
    sanity_check_wiki w comp s
      = .ok { s with trace := s.trace ++ [Ev.listPages, Ev.printMsg wiki_header_msg]
            ++ (reportTitles comp s.pages).map Ev.printMsg }
    ∧ ((∀ t ∈ s.pages.map Prod.fst,
          some t ∈ comp.proposals.map (fun p => p.cell title_column_name)) →
        reportTitles comp s.pages = []) := by
  refine ⟨sanity_check_wiki_eq comp s h, fun hall => ?_⟩
  unfold reportTitles
  rw [List.filter_eq_nil_iff]
  intro t ht
  have hc2 : (comp.proposals.map (fun p => p.cell title_column_name)).contains (some t) = true :=
    List.elem_eq_true_of_mem (hall t ht)
  rw [hc2]
  simp

/-- Closed instance of C4: against remote pages `A`, `C` with expected
title `A`, the audit reports exactly `C`; against remote pages `A` alone
it reports nothing. -/
theorem sanity_check_reports_witness :
    (sanity_check_wiki w0 comp1 stAC
      = .ok { stAC with trace := stAC.trace ++ [Ev.listPages, Ev.printMsg wiki_header_msg]
            ++ (reportTitles comp1 stAC.pages).map Ev.printMsg })
    ∧ reportTitles comp1 stAC.pages = ["C"]
    ∧ reportTitles comp1 stAOnly.pages = [] :=
  ⟨(sanity_check_reports_unexpected w0 comp1 stAC rfl).1, by decide,
    (sanity_check_reports_unexpected w0 comp1 stAOnly rfl).2 (by decide)⟩

/-- C5: the TOC upload call carries a `raw_toc` parameter exactly when the
TOC declares raw mode (then with the truthy value `"true"`); when it does
not, no `raw_toc` parameter of any value is transmitted; and `upload_toc`
issues precisely this call as its first effect whenever the call is not
refused by the transport. -/
theorem upload_toc_raw_flag (w : World) (cn : String) (toc : Toc) (s : St) :
    (toc.raw = true → ("raw_toc", "true") ∈ wireParams (toc_call_params cn toc))
    ∧ (toc.raw = false → ∀ v, ("raw_toc", v) ∉ wireParams (toc_call_params cn toc))
    ∧ (w.fails (toc_call_ev cn toc) = false →
        ∃ d, stTrace (upload_toc w cn toc s) = s.trace ++ toc_call_ev cn toc :: d) := by
  refine ⟨?_, ?_, ?_⟩
  · intro hr
    simp [wireParams, toc_call_params, hr]
  · intro hr v
    simp [wireParams, toc_call_params, hr]
  · intro hcall
    unfold upload_toc
    rw [step_nofail hcall]
    dsimp only
    cases hf : w.fails (Ev.fetch toc.name) with
    | true =>
      rw [fetchExists_fail _ hf]
      exact ⟨[Ev.fetch toc.name], by simp [stTrace, emit]⟩
    | false =>
      rw [fetchExists_nofail _ hf]
      dsimp only [emit_pages]
      cases hex : (s.pages.lookup toc.name).isSome with
      | true =>
        exact ⟨[Ev.fetch toc.name], by simp [stTrace, emit]⟩
      | false =>
        cases hsave : w.fails (Ev.save toc.name (toc_page_body cn toc.name)) with
        | true =>
          rw [savePage_fail _ hsave]
          exact ⟨[Ev.fetch toc.name, Ev.save toc.name (toc_page_body cn toc.name)],
            by simp [stTrace, emit]⟩
        | false =>
          rw [savePage_nofail _ hsave]
          exact ⟨[Ev.fetch toc.name, Ev.save toc.name (toc_page_body cn toc.name)],
            by simp [stTrace, emit]⟩

/-- Closed instance of C5 at a raw TOC and a non-raw TOC. -/
theorem upload_toc_raw_flag_witness :
    ("raw_toc", "true") ∈ wireParams (toc_call_params "comp" tocR)
    ∧ ("raw_toc", "true") ∉ wireParams (toc_call_params "comp" tocA)
    ∧ ("raw_toc", "false") ∉ wireParams (toc_call_params "comp" tocA)
    ∧ ∃ d, stTrace (upload_toc w0 "comp" tocR stEmpty)
        = stEmpty.trace ++ toc_call_ev "comp" tocR :: d :=
  ⟨(upload_toc_raw_flag w0 "comp" tocR stEmpty).1 rfl,
    (upload_toc_raw_flag w0 "comp" tocA stEmpty).2.1 rfl "true",
    (upload_toc_raw_flag w0 "comp" tocA stEmpty).2.1 rfl "false",
    (upload_toc_raw_flag w0 "comp" tocR stEmpty).2.2 rfl⟩

theorem create_pages_go_attempts (w : World) (cn : String) (l : List Proposal) :
    ∀ s : St, (∀ p ∈ l, (p.cell title_column_name).isSome = true) →
      ∃ s2, create_pages_go w cn l s = .ok s2
        ∧ ∀ p ∈ l, ∀ t, p.cell title_column_name = some t → t ≠ "" →
            Ev.fetch t ∈ s2.trace
            ∧ (w.fails (Ev.fetch t) = true →
                Ev.printMsg (t ++ " failed to save") ∈ s2.trace) := by
  induction l with
  | nil =>
    intro s _
    exact ⟨s, rfl, by simp⟩
  | cons p ps ih =>
    intro s h
    have hp := h p (by simp)
    cases hc : p.cell title_column_name with
    | none => rw [hc] at hp; simp at hp
    | some t0 =>
      obtain ⟨s2, hok, hrest⟩ :=
        ih (create_page w t0 (proposal_page_body cn p.key) false s)
          (fun q hq => h q (by simp [hq]))
      refine ⟨s2, by rw [create_pages_go_cons_some w cn p ps s t0 hc]; exact hok, ?_⟩
      intro q hq t hct hne
      rcases List.mem_cons.mp hq with rfl | hq2
      · rw [hc] at hct
        injection hct with ht0
        subst ht0
        have hat := create_page_attempts w t0 (proposal_page_body cn q.key) false s hne
        obtain ⟨d1, hd1⟩ := create_pages_go_mono w cn ps _ _ hok
        constructor
        · rw [hd1]
          exact List.mem_append_left _ hat.1
        · intro hfail
          rw [hd1]
          exact List.mem_append_left _ (hat.2 hfail)
      · exact hrest q hq2 t hct hne

/-- C7: a fetch or save failure on one record's page is caught inside
`create_page` (the batch returns `.ok` in every world whenever all titles
are present), the offending title is logged, and every record's page
creation is still attempted: the fetch for each non-empty title appears in
the final trace no matter which other operations failed. -/
theorem create_pages_best_effort (w : World) (cn : String) (comp : Competition) (s : St)
    (h : ∀ p ∈ comp.proposals, (p.cell title_column_name).isSome = true) :
    (∃ s2, create_pages w cn comp s = .ok s2
      ∧ ∀ p ∈ comp.proposals, ∀ t, p.cell title_column_name = some t → t ≠ "" →
          Ev.fetch t ∈ s2.trace
          ∧ (w.fails (Ev.fetch t) = true →
              Ev.printMsg (t ++ " failed to save") ∈ s2.trace))
    ∧ (∀ (t b : String) (s1 : St), t ≠ "" → w.fails (Ev.fetch t) = false →
        (s1.pages.lookup t).isSome = false → w.fails (Ev.save t b) = true →
        Ev.printMsg (t ++ " failed to save") ∈ (create_page w t b false s1).trace) := by
  constructor
  · exact create_pages_go_attempts w cn comp.proposals s h
  · intro t b s1 hne hfet hex hsave
    have hcond : (!(s1.pages.lookup t).isSome || false) = true := by
      rw [hex]
      rfl
    rw [create_page_save_fail b false s1 hne hfet hcond hsave]
    simp [emit]

/-- Closed instance of C7: with every fetch failing, the batch on `comp1`
still succeeds, the fetch for `A` was attempted and the failure logged. -/
theorem create_pages_best_effort_witness :
    create_pages wFetchFail "comp" comp1 stEmpty = .ok c7St
    ∧ Ev.fetch "A" ∈ c7St.trace
    ∧ Ev.printMsg ("A" ++ " failed to save") ∈ c7St.trace := by
  obtain ⟨⟨s2, hok, hmem⟩, _⟩ :=
    create_pages_best_effort wFetchFail "comp" comp1 stEmpty (by decide)
  have heq : create_pages wFetchFail "comp" comp1 stEmpty = .ok c7St := by rfl
  rw [heq] at hok
  injection hok with hs2
  subst hs2
  have hm := hmem propA (by decide) "A" (by decide) (by decide)
  exact ⟨heq, hm.1, hm.2 rfl⟩

/-- C9: with the TOC data call accepted, a failing fetch of the TOC display
page — or a failing save of an absent TOC display page — aborts
`upload_toc` with a propagated transport error, whereas `create_page`
absorbs the very same fetch failure into a log line and returns normally. -/
theorem upload_toc_failure_propagates (w : World) (cn : String) (toc : Toc) (s : St)
    (hcall : w.fails (toc_call_ev cn toc) = false) :
    (w.fails (Ev.fetch toc.name) = true →
        upload_toc w cn toc s
          = .error (Err.transport,
              { s with trace := s.trace ++ [toc_call_ev cn toc, Ev.fetch toc.name] })
        ∧ (toc.name ≠ "" → ∀ b, create_page w toc.name b false s
            = { s with trace := s.trace ++ [Ev.fetch toc.name,
                  Ev.printMsg (toc.name ++ " failed to save")] }))
    ∧ (w.fails (Ev.fetch toc.name) = false →
        (s.pages.lookup toc.name).isSome = false →
        w.fails (Ev.save toc.name (toc_page_body cn toc.name)) = true →
        upload_toc w cn toc s
          = .error (Err.transport,
              { s with trace := s.trace ++ [toc_call_ev cn toc, Ev.fetch toc.name,
                  Ev.save toc.name (toc_page_body cn toc.name)] })) := by
  constructor
  · intro hf
    constructor
    · unfold upload_toc
      rw [step_nofail hcall]
      dsimp only
      rw [fetchExists_fail _ hf]
      simp [emit]
    · intro hne b
      rw [create_page_fetch_fail b false s hne hf]
      simp [emit]
  · intro hf hex hsave
    unfold upload_toc
    rw [step_nofail hcall]
    dsimp only
    rw [fetchExists_nofail _ hf]
    dsimp only [emit_pages]
    rw [hex]
    rw [savePage_fail _ hsave]
    simp [emit]

/-- Closed instance of C9: a failing TOC-page fetch aborts `upload_toc`
while the same failure inside `create_page` is caught and logged. -/
theorem upload_toc_failure_propagates_witness :
    upload_toc wFetchFail "comp" tocA stEmpty
      = .error (Err.transport,
          { stEmpty with trace := stEmpty.trace ++ [toc_call_ev "comp" tocA, Ev.fetch "TocA"] })
    ∧ create_page wFetchFail "TocA" "b" false stEmpty
      = { stEmpty with trace := stEmpty.trace ++ [Ev.fetch "TocA",
            Ev.printMsg ("TocA" ++ " failed to save")] } := by
  have h := (upload_toc_failure_propagates wFetchFail "comp" tocA stEmpty rfl).1 rfl
  exact ⟨h.1, h.2 (by decide) "b"⟩

theorem upload_attachments_go_read_fail (w : World) (cn : String) (a : Attachment)
    (rest : List Attachment) (s : St) (h : w.fails (Ev.openRead a.path) = true) :
    upload_attachments_go w cn (a :: rest) s
      = .error (Err.transport,
          emit (Ev.openRead a.path) (emit (.printMsg ("Uploading " ++ a.file)) s)) := by
  conv_lhs => unfold upload_attachments_go
  rw [step_fail h]

theorem upload_attachments_go_call_fail (w : World) (cn : String) (a : Attachment)
    (rest : List Attachment) (s : St) (hr : w.fails (Ev.openRead a.path) = false)
    (hc : w.fails (att_call_ev w cn a) = true) :
    upload_attachments_go w cn (a :: rest) s
      = .error (Err.transport,
          emit (att_call_ev w cn a)
            (emit (Ev.openRead a.path) (emit (.printMsg ("Uploading " ++ a.file)) s))) := by
  conv_lhs => unfold upload_attachments_go
  rw [step_nofail hr]
  dsimp only
  rw [step_fail hc]

theorem upload_attachments_go_cons_ok (w : World) (cn : String) (a : Attachment)
    (rest : List Attachment) (s : St) (hr : w.fails (Ev.openRead a.path) = false)
    (hc : w.fails (att_call_ev w cn a) = false) :
    upload_attachments_go w cn (a :: rest) s
      = upload_attachments_go w cn rest
          (emit (att_call_ev w cn a)
            (emit (Ev.openRead a.path) (emit (.printMsg ("Uploading " ++ a.file)) s))) := by
  conv_lhs => unfold upload_attachments_go
  rw [step_nofail hr]
  dsimp only
  rw [step_nofail hc]

theorem upload_attachments_go_fail_fast (w : World) (cn : String)
    (xs : List Attachment) (a : Attachment) (ys : List Attachment) :
    ∀ s : St,
    (∀ x ∈ xs, w.fails (Ev.openRead x.path) = false ∧ w.fails (att_call_ev w cn x) = false) →
    (w.fails (Ev.openRead a.path) = true →
      upload_attachments_go w cn (xs ++ a :: ys) s
        = .error (Err.transport, { s with trace := s.trace ++ ((xs.map (att_events w cn)).flatten
            ++ [Ev.printMsg ("Uploading " ++ a.file), Ev.openRead a.path]) }))
    ∧ (w.fails (Ev.openRead a.path) = false → w.fails (att_call_ev w cn a) = true →
      upload_attachments_go w cn (xs ++ a :: ys) s
        = .error (Err.transport, { s with trace := s.trace ++ ((xs.map (att_events w cn)).flatten
            ++ [Ev.printMsg ("Uploading " ++ a.file), Ev.openRead a.path, att_call_ev w cn a]) })) := by
  induction xs with
  | nil =>
    intro s _
    constructor
    · intro hra
      rw [List.nil_append, upload_attachments_go_read_fail w cn a ys s hra]
      simp [emit]
    · intro hra hca
      rw [List.nil_append, upload_attachments_go_call_fail w cn a ys s hra hca]
      simp [emit]
  | cons x xs ih =>
    intro s hxs
    have hx := hxs x (by simp)
    have ihx := ih (emit (att_call_ev w cn x)
        (emit (Ev.openRead x.path) (emit (.printMsg ("Uploading " ++ x.file)) s)))
      (fun q hq => hxs q (by simp [hq]))
    constructor
    · intro hra
      rw [List.cons_append, upload_attachments_go_cons_ok w cn x (xs ++ a :: ys) s hx.1 hx.2,
        ihx.1 hra]
      simp [emit, att_events]
    · intro hra hca
      rw [List.cons_append, upload_attachments_go_cons_ok w cn x (xs ++ a :: ys) s hx.1 hx.2,
        ihx.2 hra hca]
      simp [emit, att_events]

/-- C8: attachments are uploaded strictly one at a time in list order; a
failure reading (or transmitting) one attachment propagates as an
uncaught transport error, and the resulting trace contains the upload
calls of exactly the attachments before the failing one — none for it
(in the read-failure case) and none for any attachment after it. -/
theorem upload_attachments_fail_fast (w : World) (cn : String)
    (xs : List Attachment) (a : Attachment) (ys : List Attachment) (s : St)
    (hxs : ∀ x ∈ xs, w.fails (Ev.openRead x.path) = false
      ∧ w.fails (att_call_ev w cn x) = false) :
    (w.fails (Ev.openRead a.path) = true →
      upload_attachments w ⟨cn, false⟩ (xs ++ a :: ys) s
        = .error (Err.transport, { s with trace := s.trace ++ ((xs.map (att_events w cn)).flatten
            ++ [Ev.printMsg ("Uploading " ++ a.file), Ev.openRead a.path]) }))
    ∧ (w.fails (Ev.openRead a.path) = false → w.fails (att_call_ev w cn a) = true →
      upload_attachments w ⟨cn, false⟩ (xs ++ a :: ys) s
        = .error (Err.transport, { s with trace := s.trace ++ ((xs.map (att_events w cn)).flatten
            ++ [Ev.printMsg ("Uploading " ++ a.file), Ev.openRead a.path, att_call_ev w cn a]) })) := by
  have h := upload_attachments_go_fail_fast w cn xs a ys s hxs
  exact h

/-- Closed instance of C8: with `att1` healthy and the read of `att2`
failing, the batch aborts with a transport error right after `att1`'s
three effects and `att2`'s attempted open — no call for `att2` and
nothing beyond. -/
theorem upload_attachments_fail_fast_witness :
    upload_attachments wRead2Fail ⟨"comp", false⟩ [att1, att2] stEmpty
      = .error (Err.transport, { stEmpty with trace := stEmpty.trace
          ++ (([att1].map (att_events wRead2Fail "comp")).flatten
            ++ [Ev.printMsg ("Uploading " ++ att2.file), Ev.openRead att2.path]) }) :=
  (upload_attachments_fail_fast wRead2Fail "comp" [att1] att2 [] stEmpty (by decide)).1 rfl

theorem upload_toc_ok_cases {w : World} {cn : String} {toc : Toc} {s s2 : St}
    (h : upload_toc w cn toc s = .ok s2) :
    s2 = emit (Ev.fetch toc.name) (emit (toc_call_ev cn toc) s)
    ∨ s2 = ⟨setPage s.pages toc.name (toc_page_body cn toc.name),
        s.trace ++ [toc_call_ev cn toc, Ev.fetch toc.name,
          Ev.save toc.name (toc_page_body cn toc.name)]⟩ := by
  unfold upload_toc at h
  cases hcall : w.fails (toc_call_ev cn toc) with
  | true => rw [step_fail hcall] at h; simp at h
  | false =>
    rw [step_nofail hcall] at h
    dsimp only at h
    cases hf : w.fails (Ev.fetch toc.name) with
    | true => rw [fetchExists_fail _ hf] at h; simp at h
    | false =>
      rw [fetchExists_nofail _ hf] at h
      dsimp only [emit_pages] at h
      cases hex : (s.pages.lookup toc.name).isSome with
      | true =>
        rw [hex] at h
        simp at h
        exact Or.inl h.symm
      | false =>
        rw [hex] at h
        simp only [Bool.false_eq_true, if_false] at h
        cases hsave : w.fails (Ev.save toc.name (toc_page_body cn toc.name)) with
        | true => rw [savePage_fail _ hsave] at h; simp at h
        | false =>
          rw [savePage_nofail _ hsave] at h
          simp only [Except.ok.injEq] at h
          right
          rw [← h]
          simp [emit]

theorem upload_toc_delta {w : World} {cn : String} {toc : Toc} {s s2 : St} (Q : Ev → Prop)
    (h : upload_toc w cn toc s = .ok s2)
    (hQc : Q (toc_call_ev cn toc)) (hQf : Q (Ev.fetch toc.name))
    (hQs : Q (Ev.save toc.name (toc_page_body cn toc.name))) :
    ∃ d, s2.trace = s.trace ++ d ∧ ∀ e ∈ d, Q e := by
  rcases upload_toc_ok_cases h with h2 | h2
  · refine ⟨[toc_call_ev cn toc, Ev.fetch toc.name], by rw [h2]; simp [emit], ?_⟩
    intro e he
    simp only [List.mem_cons, List.not_mem_nil, or_false] at he
    rcases he with rfl | rfl
    · exact hQc
    · exact hQf
  · refine ⟨[toc_call_ev cn toc, Ev.fetch toc.name,
      Ev.save toc.name (toc_page_body cn toc.name)], by rw [h2], ?_⟩
    intro e he
    simp only [List.mem_cons, List.not_mem_nil, or_false] at he
    rcases he with rfl | rfl | rfl
    · exact hQc
    · exact hQf
    · exact hQs

theorem upload_tocs_delta {w : World} {cn : String} (Q : Ev → Prop) :
    ∀ (l : List Toc) (s s2 : St), upload_tocs w cn l s = .ok s2 →
    (∀ toc ∈ l, Q (toc_call_ev cn toc) ∧ Q (Ev.fetch toc.name)
      ∧ Q (Ev.save toc.name (toc_page_body cn toc.name))) →
    ∃ d, s2.trace = s.trace ++ d ∧ ∀ e ∈ d, Q e := by
  intro l
  induction l with
  | nil =>
    intro s s2 h _
    unfold upload_tocs at h
    simp only [Except.ok.injEq] at h
    exact ⟨[], by rw [← h]; simp, by simp⟩
  | cons t ts ih =>
    intro s s2 h hQ
    unfold upload_tocs at h
    cases hu : upload_toc w cn t s with
    | error e => rw [hu] at h; simp at h
    | ok s1 =>
      rw [hu] at h
      dsimp only at h
      have hQt := hQ t (by simp)
      obtain ⟨d0, hd0, hQ0⟩ := upload_toc_delta Q hu hQt.1 hQt.2.1 hQt.2.2
      obtain ⟨d1, hd1, hQ1⟩ := ih s1 s2 h (fun q hq => hQ q (by simp [hq]))
      refine ⟨d0 ++ d1, by rw [hd1, hd0, List.append_assoc], ?_⟩
      intro e he
      rcases List.mem_append.mp he with h2 | h2
      · exact hQ0 e h2
      · exact hQ1 e h2

theorem create_pages_go_delta {w : World} {cn : String} (Q : Ev → Prop)
    (hQf : ∀ t, Q (Ev.fetch t)) (hQs : ∀ t b, Q (Ev.save t b))
    (hQp : ∀ m, Q (Ev.printMsg m)) :
    ∀ (l : List Proposal) (s s2 : St), create_pages_go w cn l s = .ok s2 →
    ∃ d, s2.trace = s.trace ++ d ∧ ∀ e ∈ d, Q e := by
  intro l
  induction l with
  | nil =>
    intro s s2 h
    unfold create_pages_go at h
    simp only [Except.ok.injEq] at h
    exact ⟨[], by rw [← h]; simp, by simp⟩
  | cons p ps ih =>
    intro s s2 h
    cases hc : p.cell title_column_name with
    | none => rw [create_pages_go_cons_none w cn p ps s hc] at h; simp at h
    | some t =>
      rw [create_pages_go_cons_some w cn p ps s t hc] at h
      obtain ⟨d0, hd0, hQ0⟩ :=
        create_page_delta w t (proposal_page_body cn p.key) false s Q
          (hQf t) (hQs t _) hQp
      obtain ⟨d1, hd1, hQ1⟩ := ih _ s2 h
      refine ⟨d0 ++ d1, by rw [hd1, hd0, List.append_assoc], ?_⟩
      intro e he
      rcases List.mem_append.mp he with h2 | h2
      · exact hQ0 e h2
      · exact hQ1 e h2

theorem sanity_check_wiki_delta {w : World} {comp : Competition} {s s2 : St} (Q : Ev → Prop)
    (h : sanity_check_wiki w comp s = .ok s2)
    (hQl : Q Ev.listPages) (hQp : ∀ m, Q (Ev.printMsg m)) :
    ∃ d, s2.trace = s.trace ++ d ∧ Ev.listPages ∈ d ∧ ∀ e ∈ d, Q e := by
  obtain ⟨h2, _⟩ := sanity_check_wiki_ok h
  refine ⟨[Ev.listPages, Ev.printMsg wiki_header_msg]
    ++ (reportTitles comp s.pages).map Ev.printMsg, by rw [h2]; simp, by simp, ?_⟩
  intro e he
  rcases List.mem_append.mp he with h3 | h3
  · simp only [List.mem_cons, List.not_mem_nil, or_false] at h3
    rcases h3 with rfl | rfl
    · exact hQl
    · exact hQp _
  · obtain ⟨m, _, rfl⟩ := List.mem_map.mp h3
    exact hQp _

theorem upload_sheet_delta_any {w : World} {ss : WikiSession} {comp : Competition}
    {s s2 : St} (Q : Ev → Prop)
    (h : upload_sheet w ss comp s = .ok s2)
    (hQsheet : Q (sheet_call_ev ss.competition_name comp))
    (hQtoc : ∀ toc ∈ comp.tocs, Q (toc_call_ev ss.competition_name toc))
    (hQf : ∀ t, Q (Ev.fetch t)) (hQs : ∀ (t b : String), Q (Ev.save t b))
    (hQp : ∀ m, Q (Ev.printMsg m)) (hQl : Q Ev.listPages) :
    ∃ d, s2.trace = s.trace ++ d ∧ Ev.listPages ∈ d ∧ ∀ e ∈ d, Q e := by
  unfold upload_sheet at h
  cases hcall : w.fails (sheet_call_ev ss.competition_name comp) with
  | true => rw [step_fail hcall] at h; simp at h
  | false =>
    rw [step_nofail hcall] at h
    dsimp only at h
    cases htocs : upload_tocs w ss.competition_name comp.tocs
        (emit (sheet_call_ev ss.competition_name comp) s) with
    | error e => rw [htocs] at h; simp at h
    | ok s3 =>
      rw [htocs] at h
      dsimp only at h
      obtain ⟨d1, hd1, hQ1⟩ := upload_tocs_delta Q comp.tocs _ s3 htocs
        (fun toc htoc => ⟨hQtoc toc htoc, hQf _, hQs _ _⟩)
      have hrest : ∃ s4, (if ss.csv_only then Except.ok s3
            else create_pages w ss.competition_name comp s3) = .ok s4
          ∧ sanity_check_wiki w comp s4 = .ok s2
          ∧ ∃ d2, s4.trace = s3.trace ++ d2 ∧ ∀ e ∈ d2, Q e := by
        cases hmode : ss.csv_only with
        | true =>
          rw [hmode] at h
          simp only [if_pos rfl] at h ⊢
          exact ⟨s3, rfl, h, ⟨[], by simp, by simp⟩⟩
        | false =>
          rw [hmode] at h
          simp only [Bool.false_eq_true, if_false] at h ⊢
          cases hcp : create_pages w ss.competition_name comp s3 with
          | error e => rw [hcp] at h; simp at h
          | ok s4 =>
            rw [hcp] at h
            dsimp only at h
            exact ⟨s4, rfl, h,
              create_pages_go_delta Q hQf hQs hQp comp.proposals s3 s4 hcp⟩
      obtain ⟨s4, _, hsan, d2, hd2, hQ2⟩ := hrest
      obtain ⟨d3, hd3, hlp, hQ3⟩ := sanity_check_wiki_delta Q hsan hQl hQp
      refine ⟨(sheet_call_ev ss.competition_name comp) :: (d1 ++ d2 ++ d3), ?_, ?_, ?_⟩
      · rw [hd3, hd2, hd1]
        simp [emit]
      · simp [hlp]
      · intro e he
        rcases List.mem_cons.mp he with rfl | he2
        · exact hQsheet
        rcases List.mem_append.mp he2 with he3 | he3
        · rcases List.mem_append.mp he3 with he4 | he4
          · exact hQ1 e he4
          · exact hQ2 e he4
        · exact hQ3 e he3

theorem upload_sheet_delta_data_only {w : World} {ss : WikiSession} {comp : Competition}
    {s s2 : St} (Q : Ev → Prop)
    (hmode : ss.csv_only = true)
    (h : upload_sheet w ss comp s = .ok s2)
    (hQtoc : ∀ toc ∈ comp.tocs, Q (toc_call_ev ss.competition_name toc)
      ∧ Q (Ev.fetch toc.name) ∧ Q (Ev.save toc.name (toc_page_body ss.competition_name toc.name)))
    (hQp : ∀ m, Q (Ev.printMsg m)) (hQl : Q Ev.listPages) :
    ∃ d, s2.trace = s.trace ++ (sheet_call_ev ss.competition_name comp :: d)
      ∧ ∀ e ∈ d, Q e := by
  unfold upload_sheet at h
  cases hcall : w.fails (sheet_call_ev ss.competition_name comp) with
  | true => rw [step_fail hcall] at h; simp at h
  | false =>
    rw [step_nofail hcall] at h
    dsimp only at h
    cases htocs : upload_tocs w ss.competition_name comp.tocs
        (emit (sheet_call_ev ss.competition_name comp) s) with
    | error e => rw [htocs] at h; simp at h
    | ok s3 =>
      rw [htocs, hmode] at h
      simp only [if_pos rfl] at h
      obtain ⟨d1, hd1, hQ1⟩ := upload_tocs_delta Q comp.tocs _ s3 htocs hQtoc
      obtain ⟨d3, hd3, _, hQ3⟩ := sanity_check_wiki_delta Q h hQl hQp
      refine ⟨d1 ++ d3, ?_, ?_⟩
      · rw [hd3, hd1]
        simp [emit]
      · intro e he
        rcases List.mem_append.mp he with he2 | he2
        · exact hQ1 e he2
        · exact hQ3 e he2

theorem upload_attachments_go_mono {w : World} {cn : String} :
    ∀ (l : List Attachment) (s s2 : St),
    upload_attachments_go w cn l s = .ok s2 → ∃ d, s2.trace = s.trace ++ d := by
  intro l
  induction l with
  | nil =>
    intro s s2 h
    unfold upload_attachments_go at h
    simp only [Except.ok.injEq] at h
    exact ⟨[], by rw [← h]; simp⟩
  | cons a rest ih =>
    intro s s2 h
    cases hr : w.fails (Ev.openRead a.path) with
    | true => rw [upload_attachments_go_read_fail w cn a rest s hr] at h; simp at h
    | false =>
      cases hc : w.fails (att_call_ev w cn a) with
      | true => rw [upload_attachments_go_call_fail w cn a rest s hr hc] at h; simp at h
      | false =>
        rw [upload_attachments_go_cons_ok w cn a rest s hr hc] at h
        obtain ⟨d1, hd1⟩ := ih _ s2 h
        refine ⟨[Ev.printMsg ("Uploading " ++ a.file), Ev.openRead a.path,
          att_call_ev w cn a] ++ d1, ?_⟩
        rw [hd1]
        simp [emit]

theorem upload_attachments_mono {w : World} {ss : WikiSession} {atts : List Attachment}
    {s s2 : St} (h : upload_attachments w ss atts s = .ok s2) :
    ∃ d, s2.trace = s.trace ++ d := by
  unfold upload_attachments at h
  cases hm : ss.csv_only with
  | true =>
    rw [hm] at h
    simp at h
    refine ⟨[], ?_⟩
    simp [h]
  | false =>
    rw [hm] at h
    simp only [Bool.false_eq_true, if_false] at h
    exact upload_attachments_go_mono atts s s2 h

/-- C6 (amended): in a full run the audit does not come last — it runs at
the end of `upload_sheet`, before `upload_attachments`; hence the final
trace splits as a prefix that already contains the audit's page listing
and contains no attachment-upload call, followed by the attachment batch. -/
theorem full_run_audit_before_attachments (w : World) (ss : WikiSession)
    (comp : Competition) (atts : List Attachment)
    (pages : List (String × String)) (s2 : St)
    (hrun : full_run w ss comp atts pages = .ok s2) :
    ∃ t1 t2, s2.trace = t1 ++ t2 ∧ Ev.listPages ∈ t1
      ∧ ∀ e ∈ t1, isAttCall e = false := by
  unfold full_run at hrun
  cases h1 : upload_sheet w ss comp ⟨pages, []⟩ with
  | error e => rw [h1] at hrun; simp at hrun
  | ok s1 =>
    rw [h1] at hrun
    dsimp only at hrun
    obtain ⟨d, hd, hlp, hQ⟩ := upload_sheet_delta_any
      (Q := fun e => isAttCall e = false) h1 rfl (fun _ _ => rfl)
      (fun _ => rfl) (fun _ _ => rfl) (fun _ => rfl) rfl
    obtain ⟨d2, hd2⟩ := upload_attachments_mono hrun
    refine ⟨s1.trace, d2, hd2, ?_, ?_⟩
    · rw [hd]
      exact List.mem_append_right _ hlp
    · intro e he
      rw [hd] at he
      simp only [List.nil_append] at he
      exact hQ e he

set_option maxRecDepth 8192 in
/-- Closed instance of the amended C6 on a concrete full run. -/
theorem full_run_audit_before_attachments_witness :
    ∃ t1 t2, c6Result.trace = t1 ++ t2 ∧ Ev.listPages ∈ t1
      ∧ ∀ e ∈ t1, isAttCall e = false :=
  full_run_audit_before_attachments w0 ss1 comp1 [att1] [] c6Result (by rfl)

set_option maxRecDepth 8192 in
/-- C6 counterexample: in the concrete full run of `comp1` with one
attachment, the audit's page listing is the unique `listPages` event, at
index 3, while the only attachment-upload call sits at index 7 — after
it. So it is not the case that every attachment-upload call happens
before the audit's remote page listing is retrieved. -/
theorem full_run_audit_counterexample :
    full_run w0 ss1 comp1 [att1] [] = .ok c6Result
    ∧ c6Trace[3]? = some Ev.listPages
    ∧ (c6Trace[7]?.map isAttCall) = some true
    ∧ ((c6Trace.take 7).all (fun e => !(isAttCall e))) = true
    ∧ (c6Trace.filter (fun e => decide (e = Ev.listPages))).length = 1 := by
  refine ⟨by rfl, rfl, rfl, by decide, by decide⟩

/-- C1 (amended): in data-only (`csv_only`) mode, `upload_sheet` performs
the sheet upload first and issues zero attachment-upload calls and zero
record-page-create calls — every save (and fetch) in its trace belongs to
a TOC display page, which, contrary to the claim, is still created; and
`upload_attachments` is an exact no-op: it returns the state unchanged,
with no upload call and no file read. -/
theorem upload_sheet_data_only_suppression (w : World) (ss : WikiSession)
    (comp : Competition) (atts : List Attachment) (s s2 : St)
    (hmode : ss.csv_only = true)
    (hrun : upload_sheet w ss comp s = .ok s2) :
    (∃ d, s2.trace = s.trace ++ d
      ∧ d.head? = some (sheet_call_ev ss.competition_name comp)
      ∧ (∀ e ∈ d, isAttCall e = false)
      ∧ (∀ (t b : String), Ev.save t b ∈ d → ∃ toc, toc ∈ comp.tocs ∧ t = toc.name
          ∧ b = toc_page_body ss.competition_name toc.name)
      ∧ (∀ t : String, Ev.fetch t ∈ d → ∃ toc, toc ∈ comp.tocs ∧ t = toc.name))
    ∧ upload_attachments w ss atts s = .ok s := by
  constructor
  · obtain ⟨d1, hd1, hQ1⟩ := upload_sheet_delta_data_only
      (Q := fun e => isAttCall e = false
        ∧ (∀ (t b : String), e = Ev.save t b → ∃ toc, toc ∈ comp.tocs ∧ t = toc.name
            ∧ b = toc_page_body ss.competition_name toc.name)
        ∧ (∀ t : String, e = Ev.fetch t → ∃ toc, toc ∈ comp.tocs ∧ t = toc.name))
      hmode hrun
      (fun toc htoc =>
        ⟨⟨rfl, fun t b hq => by simp [toc_call_ev] at hq,
            fun t hq => by simp [toc_call_ev] at hq⟩,
          ⟨rfl, fun t b hq => by simp at hq,
            fun t hq => by injection hq with h2; exact ⟨toc, htoc, h2.symm⟩⟩,
          ⟨rfl, fun t b hq => by
              injection hq with h2 h3
              exact ⟨toc, htoc, h2.symm, h3.symm⟩,
            fun t hq => by simp at hq⟩⟩)
      (fun m => ⟨rfl, fun t b hq => by simp at hq, fun t hq => by simp at hq⟩)
      ⟨rfl, fun t b hq => by simp at hq, fun t hq => by simp at hq⟩
    refine ⟨sheet_call_ev ss.competition_name comp :: d1, hd1, rfl, ?_, ?_, ?_⟩
    · intro e he
      rcases List.mem_cons.mp he with rfl | he2
      · rfl
      · exact (hQ1 e he2).1
    · intro t b hmem
      rcases List.mem_cons.mp hmem with heq | hm2
      · simp [sheet_call_ev] at heq
      · exact (hQ1 _ hm2).2.1 t b rfl
    · intro t hmem
      rcases List.mem_cons.mp hmem with heq | hm2
      · simp [sheet_call_ev] at heq
      · exact (hQ1 _ hm2).2.2 t rfl
  · unfold upload_attachments
    rw [hmode]
    rfl

set_option maxRecDepth 8192 in
/-- Closed instance of the amended C1 on the concrete data-only run. -/
theorem upload_sheet_data_only_witness :
    upload_attachments w0 ss0 [att1] stEmpty = .ok stEmpty
    ∧ ∃ d, c1Result.trace = stEmpty.trace ++ d
        ∧ d.head? = some (sheet_call_ev ss0.competition_name comp0)
        ∧ ∀ e ∈ d, isAttCall e = false := by
  obtain ⟨⟨d, hd, hh, hatt, _, _⟩, h2⟩ :=
    upload_sheet_data_only_suppression w0 ss0 comp0 [att1] stEmpty c1Result rfl (by rfl)
  exact ⟨h2, d, hd, hh, hatt⟩

set_option maxRecDepth 8192 in
/-- C1 counterexample: in data-only mode, `upload_sheet` on a dataset with
one TOC whose display page is absent still issues a TOC-page-create call,
so "zero TOC-page-create calls" fails on the code. -/
theorem upload_sheet_data_only_counterexample :
    ss0.csv_only = true
    ∧ upload_sheet w0 ss0 comp0 stEmpty = .ok c1Result
    ∧ Ev.save "TocA" (toc_page_body "comp" "TocA") ∈ c1Result.trace := by
  refine ⟨rfl, by rfl, by decide⟩
